import Mathlib

/-!
Verification of the request-context resolution pipeline of `timayz/starter`
(crates `app` and `web`): language negotiation, context extraction,
HTML minification fallback, locale-aware formatting, and the static-asset
fallback handlers.

Machine strings are Lean `String`; byte buffers are `List Nat`.
External crates (`i18n_embed`, `unic_langid`, `minify_html`, `chrono`,
`twa_jwks`, `mime_guess`, `rust_embed`) are embedded only to the extent the
code under `src/` exercises them; repository code missing from `src/`
(`starter_core::axum_extra::UserLanguage`, `i18n.rs`) is modelled from the
spec, as marked on each definition.
-/

/-- Modelled from the spec: `LANGUAGES` lives in the missing `i18n.rs`;
the spec's examples fix the supported set to {en, fr}. -/
def LANGUAGES : List String := ["en", "fr"]

/-- Model of `unic_langid::LanguageIdentifier::default()`, whose display form
is the undetermined tag "und". -/
def defaultLangId : String := "und"

/-- Splits a character list on the dash separator (structural counterpart of
`str::split('-')`). -/
def splitOnDash : List Char → List (List Char)
  | [] => [[]]
  | c :: rest =>
    let r := splitOnDash rest
    if c = '-' then [] :: r
    else
      match r with
      | [] => [[c]]
      | h :: t => (c :: h) :: t

/-- Validity of a primary language subtag (2–8 ASCII letters), following the
`unic_langid` grammar. -/
def subtagAlpha (cs : List Char) : Bool :=
  decide (2 ≤ cs.length) && decide (cs.length ≤ 8) && cs.all (fun c => c.isAlpha)

/-- Validity of a following subtag (1–8 ASCII alphanumerics). -/
def subtagAlnum (cs : List Char) : Bool :=
  decide (1 ≤ cs.length) && decide (cs.length ≤ 8) &&
    cs.all (fun c => c.isAlpha || c.isDigit)

/-- Model of `str::parse::<LanguageIdentifier>()`: a dash-separated tag whose
primary subtag is alphabetic and whose remaining subtags are alphanumeric
parses to its canonical form (primary subtag lowercased); anything else is a
parse error. -/
def parseLangId (s : String) : Option String :=
  match splitOnDash s.toList with
  | [] => none
  | p :: rest =>
    if subtagAlpha p && rest.all subtagAlnum then
      some (String.mk (List.intercalate ['-'] (p.map Char.toLower :: rest)))
    else none

/-- `lang.parse().unwrap_or_default()` from `WebContext::fl_loader`
(state.rs:192): a failed parse yields the default identifier. -/
def langIdOrDefault (s : String) : String :=
  (parseLangId s).getD defaultLangId

/-- Model of `i18n_embed::fluent::FluentLanguageLoader`: its available
languages, its fallback language, and the currently selected languages. -/
structure FluentLanguageLoader where
  available : List String
  fallback_language : String
  current_languages : List String
deriving DecidableEq, Repr

/-- Modelled from the spec: the process-wide loader built in the missing
`i18n.rs` has available languages `LANGUAGES` and fallback "en". -/
def LANGUAGE_LOADER : FluentLanguageLoader :=
  { available := LANGUAGES, fallback_language := "en", current_languages := ["en"] }

/-- Model of `FluentLanguageLoader::select_languages`: the requested languages
that are available, in request order, with the loader fallback appended
(the catalog-level second fallback of spec §4.3). -/
def FluentLanguageLoader.select_languages (l : FluentLanguageLoader)
    (requested : List String) : FluentLanguageLoader :=
  { l with
    current_languages :=
      requested.filter (fun r => l.available.contains r) ++ [l.fallback_language] }

/-- Modelled from the spec: `starter_core::axum_extra::UserLanguage` (missing
from `src/`) carries the candidate tags merged from its configured sources. -/
structure UserLanguage where
  preferred_languages : List String
deriving DecidableEq, Repr

/-- First-occurrence duplicate removal (worker, carrying the tags already
kept), as required by spec §4.1 ("discarding duplicates"). -/
def dedupKeepFirstAux (seen : List String) : List String → List String
  | [] => []
  | x :: xs =>
    if seen.contains x then dedupKeepFirstAux seen xs
    else x :: dedupKeepFirstAux (x :: seen) xs

/-- First-occurrence duplicate removal. -/
def dedupKeepFirst (l : List String) : List String :=
  dedupKeepFirstAux [] l

/-- Modelled from the spec: the source order configured in `serve`
(lib.rs:36–41) is the query parameter `lang` first, then the Accept-Language
candidates in preference order; candidates are concatenated preserving
source priority and within-source order, discarding duplicates. -/
def UserLanguage.fromSources (queryLang : Option String) (accept : List String) :
    UserLanguage :=
  ⟨dedupKeepFirst (queryLang.toList ++ accept)⟩

structure AppConfig where
  base_url : Option String
deriving DecidableEq, Repr

structure JwtClaims where
  sub : String
deriving DecidableEq, Repr

structure AppState where
  config : AppConfig
  producer : Nat
  db : Nat
deriving DecidableEq, Repr

structure FeedCommand where
  producer : Nat
  user_id : String
  request_id : String
  user_lang : String
deriving DecidableEq, Repr

structure FeedQuery where
  user_id : String
  db : Nat
deriving DecidableEq, Repr

structure WebContext where
  config : AppConfig
  lang : String
  fl_loader : FluentLanguageLoader
deriving DecidableEq, Repr

structure AppContext where
  web_context : WebContext
  feed_cmd : FeedCommand
  feed_query : FeedQuery
deriving DecidableEq, Repr

/-- Embeds `WebContext::fl_loader` (state.rs:188–196): parse every preferred
language (defaulting on failure) and select them on the global loader.
(The Lean field projection `WebContext.fl_loader` forces the `Of` suffix.) -/
def WebContext.fl_loaderOf (user_lang : UserLanguage) : FluentLanguageLoader :=
  LANGUAGE_LOADER.select_languages (user_lang.preferred_languages.map langIdOrDefault)

/-- Embeds `WebContext::fl_loader_from_string` (state.rs:198–203). -/
def WebContext.fl_loader_from_string (user_lang : String) : FluentLanguageLoader :=
  LANGUAGE_LOADER.select_languages [langIdOrDefault user_lang]

/-- Embeds `WebContext::lang` (state.rs:205–217): the first current language
contained in `LANGUAGES`, else the loader's fallback language.
(The Lean field projection `WebContext.lang` forces the `Of` suffix.) -/
def WebContext.langOf (loader : FluentLanguageLoader) : String :=
  (loader.current_languages.findSome? (fun language =>
      if LANGUAGES.contains language then some language else none)).getD
    loader.fallback_language

/-- The whole language-resolution pipeline for one request. -/
def resolveLang (queryLang : Option String) (accept : List String) : String :=
  WebContext.langOf (WebContext.fl_loaderOf (UserLanguage.fromSources queryLang accept))

example : resolveLang (some "fr") ["en-US", "en"] = "fr" := by decide
example : resolveLang none ["es"] = "en" := by decide
example : resolveLang (some "!!") ["fr"] = "fr" := by decide

/-! ## Request-context extraction (state.rs:99–140 and 250–276) -/

/-- The request data the two extractors consume. `jwt = none` models any
bearer-credential verification failure (missing, malformed, expired —
`twa_jwks` signals them all identically); `user_lang = none` models a failed
`UserLanguage` extraction (unreadable language request data). -/
structure Parts where
  jwt : Option JwtClaims
  user_lang : Option UserLanguage
deriving DecidableEq, Repr

/-- The rejection type of both extractors, `(StatusCode, Html<&'static str>)`:
a status code paired with a body. -/
structure Rejection where
  status : Nat
  body : String
deriving DecidableEq, Repr

/-- The bad-request rejection literally written in the source
(state.rs:111 and 259): `(StatusCode::BAD_REQUEST, Html("Bad Request"))`. -/
def badRequestRejection : Rejection := { status := 400, body := "Bad Request" }

/-- Modelled from the spec: the `twa_jwks` rejection propagated by `?` on
verification failure is Unauthorized with no detail leaked to the caller. -/
def unauthorizedRejection : Rejection := { status := 401, body := "" }

/-- Model of `Ulid::new().to_string()` as a function of a fresh-identifier
counter (the real ULID is drawn from time and randomness; the counter stands
for that external generator state). -/
def ulidToString (n : Nat) : String := "ulid-" ++ toString n

/-- Embeds `AppContext::from_request_parts` (state.rs:106–139).
The identifier-generator state `gen` is threaded explicitly: the returned
counter is advanced exactly when `Ulid::new()` runs. JWT verification runs
first; on its failure the function returns before language extraction is
even consulted. -/
def AppContext.from_request_parts (parts : Parts) (state : AppState) (gen : Nat) :
    Except Rejection AppContext × Nat :=
  match parts.jwt with
  | none => (.error unauthorizedRejection, gen)
  | some jwt_claims =>
    match parts.user_lang with
    | none => (.error badRequestRejection, gen)
    | some user_lang =>
      let fl_loader := WebContext.fl_loaderOf user_lang
      let lang := WebContext.langOf fl_loader
      (.ok
        { feed_cmd :=
            { producer := state.producer
              user_id := jwt_claims.sub
              request_id := ulidToString gen
              user_lang := lang }
          feed_query := { user_id := jwt_claims.sub, db := state.db }
          web_context :=
            { config := state.config, fl_loader := fl_loader, lang := lang } },
        gen + 1)

/-- Embeds `WebContext::from_request_parts` (state.rs:257–275): the anonymous
form, with no credential check and no correlation identifier. -/
def WebContext.from_request_parts (parts : Parts) (state : AppState) :
    Except Rejection WebContext :=
  match parts.user_lang with
  | none => .error badRequestRejection
  | some user_lang =>
    let fl_loader := WebContext.fl_loaderOf user_lang
    let lang := WebContext.langOf fl_loader
    .ok { config := state.config, fl_loader := fl_loader, lang := lang }

/-! ## HTML rendering and minification fallback (state.rs:150–165) -/

/-- Model of `std::str::from_utf8` on a byte buffer, restricted to the ASCII
fragment: a buffer decodes iff every byte is below 128 (a buffer with a byte
≥ 128 in a position that does not continue a valid sequence is rejected; the
ASCII restriction keeps the model executable while exhibiting both the
success and the failure branch). -/
def from_utf8 (bs : List Nat) : Option (List Nat) :=
  if bs.all (fun b => b < 128) then some bs else none

/-- Embeds the tail of `WebContext::html` (state.rs:162–164), parameterized
over the external minifier (`minify_html::minify`, bytes to bytes) and the
already-rendered document bytes:
`std::str::from_utf8(&minify(html.as_bytes(), &Cfg::new())).unwrap_or_default().to_owned()`. -/
def WebContext.html_minified (minify : List Nat → List Nat) (rendered : List Nat) :
    List Nat :=
  (from_utf8 (minify rendered)).getD []

/-- A concrete minifier output whose bytes are not valid UTF-8. -/
def minifyBad : List Nat → List Nat := fun _ => [200]

/-! ## Locale-aware formatting (state.rs:219–234) -/

/-- The two `chrono::Locale` values the source names. -/
inductive ChronoLocale
  | en_US
  | fr_FR
deriving DecidableEq, Repr

/-- Embeds the locale-selection match of `WebContext::format_localized`
(state.rs:223–231); the Bool records whether the `warn!` diagnostic for an
unhandled tag was emitted. -/
def localeForLang (lang : String) : ChronoLocale × Bool :=
  match lang with
  | "en" => (ChronoLocale.en_US, false)
  | "fr" => (ChronoLocale.fr_FR, false)
  | _ => (ChronoLocale.en_US, true)

/-- Embeds `WebContext::format_localized` (state.rs:219–234), parameterized
over the external `chrono` renderer `dt.format_localized(fmt, locale)`
(a total function of the instant, the format string and the locale). -/
def WebContext.format_localizedWith (render : Int → String → ChronoLocale → String)
    (ctx : WebContext) (dt : Int) (fmt : String) : String :=
  render dt fmt (localeForLang ctx.lang).1

/-! ## Static-asset fallback handlers (app/src/lib.rs:61–84, web/src/lib.rs:98–136) -/

/-- The response a static handler produces: status, the Content-Type header it
explicitly sets (`none` when it sets no header itself, as in the bare
`"404 Not Found"` branch), and the body. -/
structure StaticResponse where
  status : Nat
  content_type : Option String
  body : String
deriving DecidableEq, Repr

/-- `str::starts_with` over characters. -/
def strStartsWith (s p : String) : Bool :=
  p.toList.isPrefixOf s.toList

/-- `uri.replace_range(0..base_url.len(), "")`: drop the base-path prefix. -/
def strDropPrefixLen (s : String) (n : Nat) : String :=
  String.mk (s.toList.drop n)

/-- The base-path stripping both handlers perform before lookup
(app/src/lib.rs:63–75, web/src/lib.rs:104–116): when a base URL is configured
and the URI starts with it, remove it; otherwise keep the URI. -/
def stripBasePath (base_url : Option String) (uri : String) : String :=
  match base_url with
  | some b => if strStartsWith uri b then strDropPrefixLen uri b.length else uri
  | none => uri

/-- Model of the `rust_embed` asset table (keys carry the `/static/` prefix
per the `#[prefix = "/static/"]` attribute); `Assets::get` is association
lookup. The embedded `public/` folder is not in `src/`, so the table is a
parameter. -/
def assetsGet (table : List (String × String)) (path : String) : Option String :=
  table.lookup path

/-- Model of `mime_guess::from_path(..).first_or_octet_stream()`: a fixed
extension table with the octet-stream default. -/
def mimeTable : List (String × String) :=
  [("css", "text/css"), ("js", "application/javascript"), ("png", "image/png"),
   ("svg", "image/svg+xml"), ("html", "text/html"), ("ico", "image/x-icon")]

/-- Splits a character list on dots. -/
def splitOnDot : List Char → List (List Char)
  | [] => [[]]
  | c :: rest =>
    let r := splitOnDot rest
    if c = '.' then [] :: r
    else
      match r with
      | [] => [[c]]
      | h :: t => (c :: h) :: t

/-- The extension of a path: the segment after the last dot, or empty. -/
def extOf (path : String) : String :=
  match (splitOnDot path.toList).reverse with
  | [] => ""
  | [_] => ""
  | e :: _ => String.mk e

/-- Content type inferred from the path extension. -/
def mimeGuess (path : String) : String :=
  (mimeTable.lookup (extOf path)).getD "application/octet-stream"

/-- Embeds the public-variant `static_handler` (app/src/lib.rs:61–84):
strip the base path, look the path up in the embedded assets, serve it with
the inferred content type, else answer a bare 404. -/
def static_handler_public (table : List (String × String)) (base_url : Option String)
    (uri : String) : StaticResponse :=
  let path := stripBasePath base_url uri
  match assetsGet table path with
  | some content =>
    { status := 200, content_type := some (mimeGuess path), body := content }
  | none => { status := 404, content_type := none, body := "404 Not Found" }

/-- Embeds the authenticated-variant `static_handler` (web/src/lib.rs:98–136):
after base stripping, a path outside `/static/` gets the rendered not-found
page (the leptos-rendered body `notFoundHtml` is a parameter) with an explicit
`text/html` content type; a `/static/` path is looked up in the assets, and a
miss gets the same bare 404 as the public variant. -/
def static_handler_auth (notFoundHtml : String) (table : List (String × String))
    (base_url : Option String) (uri : String) : StaticResponse :=
  let path := stripBasePath base_url uri
  if ¬ strStartsWith path "/static/" then
    { status := 404, content_type := some "text/html", body := notFoundHtml }
  else
    match assetsGet table path with
    | some content =>
      { status := 200, content_type := some (mimeGuess path), body := content }
    | none => { status := 404, content_type := none, body := "404 Not Found" }

/-! ## Concrete values for evaluation -/

/-- A concrete chrono renderer used for evaluation of the formatting model. -/
def cRender : Int → String → ChronoLocale → String :=
  fun _ _ loc =>
    match loc with
    | ChronoLocale.en_US => "01/02/2024"
    | ChronoLocale.fr_FR => "02/01/2024"

/-- A context whose resolved language is "en". -/
def ctxEN : WebContext :=
  { config := { base_url := none }, lang := "en", fl_loader := LANGUAGE_LOADER }

/-- A context whose resolved language is "fr". -/
def ctxFR : WebContext :=
  { config := { base_url := none }, lang := "fr", fl_loader := LANGUAGE_LOADER }

/-- A context carrying an unrecognized language tag, to exercise the
fallback branch of the locale mapping. -/
def ctxDE : WebContext :=
  { config := { base_url := none }, lang := "de", fl_loader := LANGUAGE_LOADER }

/-- Concrete request parts: a verified credential and readable language data
preferring French. -/
def partsFR : Parts :=
  { jwt := some { sub := "user-1" }, user_lang := some ⟨["fr"]⟩ }

/-- Concrete application state. -/
def state0 : AppState :=
  { config := { base_url := none }, producer := 0, db := 0 }

/-- The context `AppContext.from_request_parts` composes for `partsFR` at
generator state 0 (written with the same subterms the extractor builds, so
the equation holds definitionally). -/
def appCtxFR : AppContext :=
  { feed_cmd :=
      { producer := 0, user_id := "user-1", request_id := ulidToString 0,
        user_lang := WebContext.langOf (WebContext.fl_loaderOf ⟨["fr"]⟩) }
    feed_query := { user_id := "user-1", db := 0 }
    web_context :=
      { config := { base_url := none }, fl_loader := WebContext.fl_loaderOf ⟨["fr"]⟩,
        lang := WebContext.langOf (WebContext.fl_loaderOf ⟨["fr"]⟩) } }

/-! ## Helper lemmas -/

/-- A successful search inside `langOf` returns a supported member of the
searched list. -/
theorem findSome?_langGuard {l : List String} {x : String}
    (h : l.findSome? (fun language =>
        if LANGUAGES.contains language then some language else none) = some x) :
    x ∈ LANGUAGES ∧ x ∈ l := by
  induction l with
  | nil => simp [List.findSome?_nil] at h
  | cons a t ih =>
    rw [List.findSome?_cons] at h
    cases hb : LANGUAGES.contains a with
    | true =>
      rw [hb, if_pos rfl] at h
      have hax : a = x := Option.some.inj h
      subst hax
      refine ⟨?_, List.mem_cons_self a t⟩
      simpa using hb
    | false =>
      rw [hb, if_neg Bool.false_ne_true] at h
      exact ⟨(ih h).1, List.mem_cons_of_mem a (ih h).2⟩

/-- The resolved language of any loader is supported or is the loader's own
fallback. -/
theorem langOf_mem_or_fallback (L : FluentLanguageLoader) :
    WebContext.langOf L ∈ LANGUAGES ∨ WebContext.langOf L = L.fallback_language := by
  unfold WebContext.langOf
  cases hf : L.current_languages.findSome? (fun language =>
      if LANGUAGES.contains language then some language else none) with
  | none => right; rfl
  | some x => left; exact (findSome?_langGuard hf).1

/-- The resolved language of a loader produced by `select_languages` is among
that loader's current languages (the fallback is always appended). -/
theorem langOf_select_mem_current (L : FluentLanguageLoader) (req : List String) :
    WebContext.langOf (L.select_languages req) ∈
      (L.select_languages req).current_languages := by
  unfold WebContext.langOf
  cases hf : (L.select_languages req).current_languages.findSome? (fun language =>
      if LANGUAGES.contains language then some language else none) with
  | none =>
    show (L.select_languages req).fallback_language ∈ _
    simp [FluentLanguageLoader.select_languages]
  | some x => exact (findSome?_langGuard hf).2

/-- Candidates that resolve to unsupported identifiers are all removed by the
availability filter of `select_languages`. -/
theorem filter_map_unsupported (l : List String)
    (h : ∀ s ∈ l, langIdOrDefault s ∉ LANGUAGES) :
    (l.map langIdOrDefault).filter (fun r => LANGUAGES.contains r) = [] := by
  induction l with
  | nil => rfl
  | cons x xs ih =>
    have hx : langIdOrDefault x ∉ LANGUAGES := h x (List.mem_cons_self x xs)
    have ih2 := ih (fun s hs => h s (List.mem_cons_of_mem x hs))
    simp [List.filter_cons, hx, ih2]
    intro a ha
    exact h a (List.mem_cons_of_mem x ha)

/-- Resolution of a query candidate that parses to itself and is supported:
it heads every intermediate list and wins the search. -/
theorem resolveLang_supported_query (r : String) (hr : langIdOrDefault r = r)
    (hcr : r ∈ LANGUAGES) (accept : List String) :
    resolveLang (some r) accept = r := by
  simp [resolveLang, UserLanguage.fromSources, dedupKeepFirst, dedupKeepFirstAux,
    WebContext.fl_loaderOf, FluentLanguageLoader.select_languages,
    WebContext.langOf, LANGUAGE_LOADER, List.filter_cons, hr, hcr,
    List.findSome?_cons]

/-! ## Claim theorems -/

/-- C1: For every request, if the query-parameter language source (`lang`)
yields a tag that is in the supported language set, the resolved language
equals that tag, regardless of the Accept-Language header contents. -/
theorem query_source_priority (q : String) (hq : q ∈ LANGUAGES)
    (accept : List String) :
    resolveLang (some q) accept = q := by
  have hq2 : q = "en" ∨ q = "fr" := by simpa [LANGUAGES] using hq
  rcases hq2 with rfl | rfl
  · exact resolveLang_supported_query "en" (by decide) hq accept
  · exact resolveLang_supported_query "fr" (by decide) hq accept

/-- C1 witness: the spec's first example — query `lang=fr` against header
`Accept-Language: en-US,en;q=0.9` resolves to "fr". -/
theorem query_source_priority_witness :
    "fr" ∈ LANGUAGES ∧ resolveLang (some "fr") ["en-US", "en"] = "fr" :=
  ⟨by decide, query_source_priority "fr" (by decide) ["en-US", "en"]⟩

/-- C2: when no source yields a candidate resolving to a supported tag
(malformed and absent inputs included), the resolved language is the
configured fallback tag. -/
theorem fallback_when_no_supported (queryLang : Option String)
    (accept : List String)
    (h : ∀ s ∈ (UserLanguage.fromSources queryLang accept).preferred_languages,
        langIdOrDefault s ∉ LANGUAGES) :
    resolveLang queryLang accept = LANGUAGE_LOADER.fallback_language := by
  have hnil := filter_map_unsupported
    (UserLanguage.fromSources queryLang accept).preferred_languages h
  unfold resolveLang WebContext.fl_loaderOf FluentLanguageLoader.select_languages
  simp only [LANGUAGE_LOADER]
  rw [hnil]
  rfl

/-- C2 witness: the spec's second example — query absent, header `es;q=1`,
resolved language "en" (the fallback). -/
theorem fallback_when_no_supported_witness :
    (∀ s ∈ (UserLanguage.fromSources none ["es"]).preferred_languages,
        langIdOrDefault s ∉ LANGUAGES) ∧
    resolveLang none ["es"] = LANGUAGE_LOADER.fallback_language :=
  ⟨by decide, fallback_when_no_supported none ["es"] (by decide)⟩

/-- C3 counterexample: when the minified bytes do not decode back to a
string, `WebContext::html` does NOT return the original rendered string
(it returns the empty default), refuting the claim at a concrete input. -/
theorem html_minified_not_original :
    from_utf8 (minifyBad [104, 105]) = none ∧
    WebContext.html_minified minifyBad [104, 105] ≠ [104, 105] := by
  exact ⟨by decide, by decide⟩

/-- C3 (amended): when the minified bytes do not decode back to a string,
`WebContext::html` degrades to the empty string (`unwrap_or_default`) rather
than failing the request. -/
theorem html_minified_empty_on_decode_failure (minify : List Nat → List Nat)
    (rendered : List Nat) (h : from_utf8 (minify rendered) = none) :
    WebContext.html_minified minify rendered = [] := by
  simp [WebContext.html_minified, h]

/-- C3 witness: the amended behaviour at a concrete failing minifier. -/
theorem html_minified_empty_witness :
    from_utf8 (minifyBad [104, 105]) = none ∧
    WebContext.html_minified minifyBad [104, 105] = [] :=
  ⟨by decide, html_minified_empty_on_decode_failure minifyBad [104, 105] (by decide)⟩

/-- C4: a request failing bearer verification is rejected as Unauthorized:
no context is composed (the result is an error) and no correlation identifier
is generated (the generator state is returned unchanged). -/
theorem unauthorized_short_circuit (parts : Parts) (state : AppState)
    (gen : Nat) (h : parts.jwt = none) :
    AppContext.from_request_parts parts state gen =
      (.error unauthorizedRejection, gen) ∧
    unauthorizedRejection.status = 401 := by
  refine ⟨?_, rfl⟩
  simp [AppContext.from_request_parts, h]

/-- C4 witness: a concrete credential-less request. -/
theorem unauthorized_short_circuit_witness :
    AppContext.from_request_parts ⟨none, some ⟨["fr"]⟩⟩ state0 7 =
      (.error unauthorizedRejection, 7) ∧
    unauthorizedRejection.status = 401 :=
  unauthorized_short_circuit ⟨none, some ⟨["fr"]⟩⟩ state0 7 rfl

/-- C5: when the language request data cannot be read, both the
authenticated extractor (once the credential has verified) and the anonymous
extractor reject with Bad Request and a minimal non-localized body, composing
no context and advancing no correlation identifier. -/
theorem bad_request_on_unreadable_language (parts : Parts) (state : AppState)
    (gen : Nat) (hlang : parts.user_lang = none) :
    (∀ c, parts.jwt = some c →
      AppContext.from_request_parts parts state gen =
        (.error badRequestRejection, gen)) ∧
    WebContext.from_request_parts parts state = .error badRequestRejection ∧
    badRequestRejection.status = 400 ∧ badRequestRejection.body = "Bad Request" := by
  refine ⟨?_, ?_, rfl, rfl⟩
  · intro c hc
    simp [AppContext.from_request_parts, hc, hlang]
  · simp [WebContext.from_request_parts, hlang]

/-- C5 witness: a concrete request with a valid credential but unreadable
language data. -/
theorem bad_request_on_unreadable_language_witness :
    AppContext.from_request_parts ⟨some ⟨"user-1"⟩, none⟩ state0 3 =
      (.error badRequestRejection, 3) ∧
    WebContext.from_request_parts ⟨some ⟨"user-1"⟩, none⟩ state0 =
      .error badRequestRejection :=
  ⟨(bad_request_on_unreadable_language ⟨some ⟨"user-1"⟩, none⟩ state0 3 rfl).1
      ⟨"user-1"⟩ rfl,
   (bad_request_on_unreadable_language ⟨some ⟨"user-1"⟩, none⟩ state0 3 rfl).2.1⟩

/-- C6: locale selection for localized formatting is total on the resolved
tag: "en" renders with en_US, "fr" with fr_FR, and any other tag renders
with the en_US fallback while recording the diagnostic; no input fails. -/
theorem format_localized_total (render : Int → String → ChronoLocale → String)
    (ctx : WebContext) (dt : Int) (fmt : String) :
    (ctx.lang = "en" →
      WebContext.format_localizedWith render ctx dt fmt =
        render dt fmt ChronoLocale.en_US ∧ (localeForLang ctx.lang).2 = false) ∧
    (ctx.lang = "fr" →
      WebContext.format_localizedWith render ctx dt fmt =
        render dt fmt ChronoLocale.fr_FR ∧ (localeForLang ctx.lang).2 = false) ∧
    (ctx.lang ≠ "en" → ctx.lang ≠ "fr" →
      WebContext.format_localizedWith render ctx dt fmt =
        render dt fmt ChronoLocale.en_US ∧ (localeForLang ctx.lang).2 = true) := by
  refine ⟨fun h => ?_, fun h => ?_, fun h1 h2 => ?_⟩
  · simp [WebContext.format_localizedWith, localeForLang, h]
  · simp [WebContext.format_localizedWith, localeForLang, h]
  · simp [WebContext.format_localizedWith, localeForLang, h1, h2]

/-- C6 witness: the three branches at concrete contexts, with the
unrecognized tag "de" taking the en_US fallback and the diagnostic. -/
theorem format_localized_total_witness :
    (WebContext.format_localizedWith cRender ctxEN 0 "%x" =
      cRender 0 "%x" ChronoLocale.en_US) ∧
    (WebContext.format_localizedWith cRender ctxFR 0 "%x" =
      cRender 0 "%x" ChronoLocale.fr_FR) ∧
    (WebContext.format_localizedWith cRender ctxDE 0 "%x" =
      cRender 0 "%x" ChronoLocale.en_US) ∧
    (localeForLang ctxDE.lang).2 = true :=
  ⟨((format_localized_total cRender ctxEN 0 "%x").1 rfl).1,
   ((format_localized_total cRender ctxFR 0 "%x").2.1 rfl).1,
   ((format_localized_total cRender ctxDE 0 "%x").2.2 (by decide) (by decide)).1,
   ((format_localized_total cRender ctxDE 0 "%x").2.2 (by decide) (by decide)).2⟩

/-- C7: every successfully composed authenticated context satisfies the
invariant: its resolved language is supported or equals the catalog
fallback, it is exactly the language selected from the context's own catalog
handle, and it belongs to that handle's current-language set. -/
theorem resolved_lang_invariant (parts : Parts) (state : AppState)
    (gen gen2 : Nat) (ctx : AppContext)
    (h : AppContext.from_request_parts parts state gen = (.ok ctx, gen2)) :
    (ctx.web_context.lang ∈ LANGUAGES ∨
      ctx.web_context.lang = LANGUAGE_LOADER.fallback_language) ∧
    ctx.web_context.lang = WebContext.langOf ctx.web_context.fl_loader ∧
    ctx.web_context.lang ∈ ctx.web_context.fl_loader.current_languages := by
  cases hj : parts.jwt with
  | none => simp [AppContext.from_request_parts, hj] at h
  | some c =>
    cases hl : parts.user_lang with
    | none => simp [AppContext.from_request_parts, hj, hl] at h
    | some u =>
      simp [AppContext.from_request_parts, hj, hl] at h
      obtain ⟨hctx, -⟩ := h
      subst hctx
      refine ⟨?_, rfl, ?_⟩
      · exact langOf_mem_or_fallback (WebContext.fl_loaderOf u)
      · exact langOf_select_mem_current LANGUAGE_LOADER
          (u.preferred_languages.map langIdOrDefault)

/-- C7 witness: the composed context for a concrete French-preferring
request. -/
theorem resolved_lang_invariant_witness :
    (appCtxFR.web_context.lang ∈ LANGUAGES ∨
      appCtxFR.web_context.lang = LANGUAGE_LOADER.fallback_language) ∧
    appCtxFR.web_context.lang = WebContext.langOf appCtxFR.web_context.fl_loader ∧
    appCtxFR.web_context.lang ∈ appCtxFR.web_context.fl_loader.current_languages :=
  resolved_lang_invariant partsFR state0 0 1 appCtxFR rfl

/-- C8: a candidate that fails to parse contributes nothing to language
selection — resolving with it is the same as resolving without it — and a
lone unparseable candidate in the single-string loader resolves to the
fallback; no parse failure is fatal (the embedded functions are total). -/
theorem unparseable_candidates_skipped :
    (∀ langs : List String,
      WebContext.langOf (WebContext.fl_loaderOf ⟨langs⟩) =
        WebContext.langOf (WebContext.fl_loaderOf
          ⟨langs.filter (fun s => (parseLangId s).isSome)⟩)) ∧
    (∀ s : String, parseLangId s = none →
      WebContext.langOf (WebContext.fl_loader_from_string s) =
        LANGUAGE_LOADER.fallback_language) := by
  constructor
  · intro langs
    have key : ∀ l : List String,
        (l.map langIdOrDefault).filter (fun r => LANGUAGES.contains r) =
          ((l.filter (fun s => (parseLangId s).isSome)).map langIdOrDefault).filter
            (fun r => LANGUAGES.contains r) := by
      intro l
      induction l with
      | nil => rfl
      | cons x xs ih =>
        cases hx : parseLangId x with
        | none =>
          have hux : langIdOrDefault x = "und" := by
            simp only [langIdOrDefault, hx, Option.getD_none, defaultLangId]
          have h1 : (x :: xs).filter (fun s => (parseLangId s).isSome) =
              xs.filter (fun s => (parseLangId s).isSome) := by
            simp only [List.filter_cons, hx, Option.isSome_none]
            rw [if_neg Bool.false_ne_true]
          have hcx : LANGUAGES.contains "und" = false := by decide
          rw [h1, List.map_cons]
          simp only [List.filter_cons, hux, hcx]
          rw [if_neg Bool.false_ne_true]
          exact ih
        | some y =>
          have h1 : (x :: xs).filter (fun s => (parseLangId s).isSome) =
              x :: xs.filter (fun s => (parseLangId s).isSome) := by
            simp only [List.filter_cons, hx, Option.isSome_some, if_true]
          rw [h1, List.map_cons, List.map_cons]
          simp only [List.filter_cons]
          rw [ih]
    unfold WebContext.fl_loaderOf FluentLanguageLoader.select_languages
    simp only [LANGUAGE_LOADER]
    rw [key]
  · intro s hs
    have hux : langIdOrDefault s = "und" := by
      simp only [langIdOrDefault, hs, Option.getD_none, defaultLangId]
    unfold WebContext.fl_loader_from_string
    rw [hux]
    decide

/-- C8 witness: the single-string branch at the concrete unparseable tag
"!!". -/
theorem unparseable_candidates_skipped_witness :
    parseLangId "!!" = none ∧
    WebContext.langOf (WebContext.fl_loader_from_string "!!") =
      LANGUAGE_LOADER.fallback_language :=
  ⟨by decide, unparseable_candidates_skipped.2 "!!" (by decide)⟩

/-- C9 counterexample: on the authenticated variant, the non-matching path
"/static/missing.js" (inside the static mount, absent from the asset table)
yields the bare "404 Not Found" response, not the rendered not-found page,
refuting the claim as stated. -/
theorem static_auth_bare_404_counterexample :
    assetsGet [("/static/css/app.css", "c1")] "/static/missing.js" = none ∧
    static_handler_auth "<html>not-found</html>" [("/static/css/app.css", "c1")]
        none "/static/missing.js" =
      { status := 404, content_type := none, body := "404 Not Found" } ∧
    ("404 Not Found" : String) ≠ "<html>not-found</html>" := by
  exact ⟨by decide, by decide, by decide⟩

/-- C9 (amended): both variants strip the configured base-path prefix before
lookup and serve a matching embedded asset with the content type inferred
from the path extension; for non-matching paths the public variant always
answers a bare 404, while the authenticated variant renders the not-found
page only for paths outside the static mount and answers a bare 404 for
unmatched paths inside it. -/
theorem static_fallback_behaviour (nf : String) (table : List (String × String))
    (base_url : Option String) (uri : String) :
    (∀ b, base_url = some b → strStartsWith uri b = true →
      stripBasePath base_url uri = strDropPrefixLen uri b.length) ∧
    (∀ c, assetsGet table (stripBasePath base_url uri) = some c →
      static_handler_public table base_url uri =
        { status := 200,
          content_type := some (mimeGuess (stripBasePath base_url uri)),
          body := c }) ∧
    (assetsGet table (stripBasePath base_url uri) = none →
      static_handler_public table base_url uri =
        { status := 404, content_type := none, body := "404 Not Found" }) ∧
    (strStartsWith (stripBasePath base_url uri) "/static/" = true →
      ∀ c, assetsGet table (stripBasePath base_url uri) = some c →
      static_handler_auth nf table base_url uri =
        { status := 200,
          content_type := some (mimeGuess (stripBasePath base_url uri)),
          body := c }) ∧
    (strStartsWith (stripBasePath base_url uri) "/static/" = false →
      static_handler_auth nf table base_url uri =
        { status := 404, content_type := some "text/html", body := nf }) ∧
    (strStartsWith (stripBasePath base_url uri) "/static/" = true →
      assetsGet table (stripBasePath base_url uri) = none →
      static_handler_auth nf table base_url uri =
        { status := 404, content_type := none, body := "404 Not Found" }) := by
  refine ⟨?_, ?_, ?_, ?_, ?_, ?_⟩
  · intro b hb hsw
    simp [stripBasePath, hb, hsw]
  · intro c hc
    simp [static_handler_public, hc]
  · intro hc
    simp [static_handler_public, hc]
  · intro hsw c hc
    simp [static_handler_auth, hsw, hc]
  · intro hsw
    simp [static_handler_auth, hsw]
  · intro hsw hc
    simp [static_handler_auth, hsw, hc]

/-- C9 witness: a base-path-stripped asset hit served as text/css on the
public variant, and a path outside the static mount rendered as the
not-found page on the authenticated variant. -/
theorem static_fallback_behaviour_witness :
    static_handler_public [("/static/css/app.css", "c1")] (some "/base")
        "/base/static/css/app.css" =
      { status := 200,
        content_type :=
          some (mimeGuess (stripBasePath (some "/base") "/base/static/css/app.css")),
        body := "c1" } ∧
    static_handler_auth "NF" [("/static/css/app.css", "c1")] none "/other/page" =
      { status := 404, content_type := some "text/html", body := "NF" } ∧
    mimeGuess (stripBasePath (some "/base") "/base/static/css/app.css") =
      "text/css" :=
  ⟨(static_fallback_behaviour "NF" [("/static/css/app.css", "c1")] (some "/base")
      "/base/static/css/app.css").2.1 "c1" (by decide),
   (static_fallback_behaviour "NF" [("/static/css/app.css", "c1")] none
      "/other/page").2.2.2.2.1 (by decide),
   by decide⟩

/-- C10: when both the bearer credential is invalid and the language request
data is unreadable, the authenticated extractor rejects Unauthorized (not
Bad Request): credential verification runs before language extraction. -/
theorem auth_precedes_language (parts : Parts) (state : AppState) (gen : Nat)
    (hj : parts.jwt = none) (hl : parts.user_lang = none) :
    AppContext.from_request_parts parts state gen =
      (.error unauthorizedRejection, gen) ∧
    unauthorizedRejection ≠ badRequestRejection := by
  exact ⟨by simp [AppContext.from_request_parts, hj], by decide⟩

/-- C10 witness: the doubly failing concrete request. -/
theorem auth_precedes_language_witness :
    AppContext.from_request_parts ⟨none, none⟩ state0 5 =
      (.error unauthorizedRejection, 5) ∧
    unauthorizedRejection ≠ badRequestRejection :=
  auth_precedes_language ⟨none, none⟩ state0 5 rfl rfl
